import Mathlib

/-!
Verification of the favicons raster-generation core (src/helpers.ts):
source selection (`bestSource` / `minBy` / `arrayComparator`), plane
rendering (`createPlaneFavicon` / `resize` / `createBlankImage`), icon
assembly (`createFavicon`), source loading (`sourceImages`) and the
fan-out scheduler (`mapAsync`).

The sharp image engine is external to the repository; it is modelled at
the level of the pipeline parameters the code hands to it together with
the dimension / channel semantics its documented contract guarantees
(`contain` resize produces exactly the requested dimensions, `rotate 90`
swaps width and height, canvas creation yields the requested channel
count, compositing keeps the base dimensions).
-/

/-- Image metadata as reported by the decoder: pixel dimensions and a
format tag (the code only discriminates on the tag being `"svg"`). -/
structure Metadata where
  width : Nat
  height : Nat
  format : String
deriving DecidableEq, Repr, Inhabited

/-- A decoded source image: raw bytes (modelled as a list of byte values)
plus decoder metadata. Mirrors `SourceImage` in helpers.ts. -/
structure SourceImage where
  data : List Nat
  metadata : Metadata
deriving DecidableEq, Repr, Inhabited

/-- One flattened per-plane option record; mirrors `IconPlaneOptions` in
helpers.ts. `offset` is the optional offset percentage, `background` the
optional background colour string. -/
structure IconPlaneOptions where
  width : Nat
  height : Nat
  offset : Option Nat
  pixelArt : Bool
  background : Option String
  transparent : Bool
  rotate : Bool
deriving DecidableEq, Repr, Inhabited

/-- The lexicographic comparator from helpers.ts (`arrayComparator`),
restricted to the already-flat integer key arrays that `minByKey` feeds
it (the `[a].flat(Infinity)` in the source is the identity on those).
The loop returns `-1` when the first array runs out first, `1` when the
second does, otherwise the sign of the first differing entry. -/
def arrayComparator : List Int → List Int → Int
  | [], [] => 0
  | [], _ :: _ => -1
  | _ :: _, [] => 1
  | a :: as, b :: bs => if a ≠ b then (if a < b then -1 else 1) else arrayComparator as bs

/-- The reduce in helpers.ts `minBy`: the accumulator survives only when
it compares strictly below the current element (so equal elements replace
the accumulator). `Array.prototype.reduce` with no initial value throws
on an empty array; that is modelled as `none`. -/
def minBy (array : List α) (comparator : α → α → Int) : Option α :=
  match array with
  | [] => none
  | a :: rest => some (rest.foldl (fun acc cur => if comparator acc cur < 0 then acc else cur) a)

/-- helpers.ts `minByKey`: `minBy` with the comparator induced by a key
function through `arrayComparator`. -/
def minByKey (array : List α) (keyFn : α → List Int) : Option α :=
  minBy array (fun a b => arrayComparator (keyFn a) (keyFn b))

/-- The ranking key computed inside `bestSource` for one candidate:
format class (SVG first), scale direction (no-upscale first), then the
absolute distance between the larger dimensions. -/
def iconKey (icon : SourceImage) (sideSize : Int) : List Int :=
  let iconSideSize : Int := max (icon.metadata.width : Int) (icon.metadata.height : Int)
  [if icon.metadata.format = "svg" then 0 else 1,
   if iconSideSize ≥ sideSize then 0 else 1,
   |iconSideSize - sideSize|]

/-- helpers.ts `Images.bestSource`: pick the candidate with the minimal
ranking key. Empty input makes the underlying reduce throw (`none`). -/
def bestSource (sourceset : List SourceImage) (width height : Int) : Option SourceImage :=
  let sideSize := max width height
  minByKey sourceset (fun icon => iconKey icon sideSize)

/-- The ranking triple for one candidate as the specification describes
it, as an explicit 3-tuple (format class, scale direction, size
distance). -/
def keyTuple (icon : SourceImage) (sideSize : Int) : Int × Int × Int :=
  let iconSideSize : Int := max (icon.metadata.width : Int) (icon.metadata.height : Int)
  (if icon.metadata.format = "svg" then 0 else 1,
   if iconSideSize ≥ sideSize then 0 else 1,
   |iconSideSize - sideSize|)

/-- Lexicographic order on ranking triples, spelled out the way the
specification describes the ranking. -/
def keyLe (a b : Int × Int × Int) : Prop :=
  a.1 < b.1 ∨ (a.1 = b.1 ∧ (a.2.1 < b.2.1 ∨ (a.2.1 = b.2.1 ∧ a.2.2 ≤ b.2.2)))

/-- Resampling kernels the code selects between. -/
inductive Kernel where
  | nearest
  | lanczos3
deriving DecidableEq, Repr, Inhabited

/-- Errors of the modelled pipeline. The first three correspond to the
explicit `throw` / `reject` sites of `sourceImages`; `fileReadError`
models a failing `fs.promises.readFile`; `emptySourceset` models the
`TypeError` of `reduce` over an empty array in `minBy`; `renderError`
models a sharp failure (e.g. a non-positive resize dimension). -/
inductive FaviconError where
  | invalidImageBuffer
  | noSource
  | invalidSourceType
  | fileReadError
  | emptySourceset
  | renderError
deriving DecidableEq, Repr, Inhabited

deriving instance DecidableEq for Except

/-- The parameters of the sharp resize call built by `Images.resize`:
target dimensions, `contain` fit, pad colour, the chosen kernel (`none`
in the SVG branch, which passes no kernel), whether `ensureAlpha` was
applied and whether an SVG rasterisation density was supplied. -/
structure ResizeOp where
  width : Int
  height : Int
  fitContain : Bool
  background : String
  kernel : Option Kernel
  alphaEnsured : Bool
  svgDensity : Bool
deriving DecidableEq, Repr, Inhabited

/-- helpers.ts `Images.resize`. Sharp rejects non-positive target
dimensions, modelled as `renderError`; otherwise the call is recorded.
For SVG sources a density option is computed (by the external `svgtool`
collaborator, whose value the core never inspects) and no kernel is
passed; for raster sources `ensureAlpha` is applied and the kernel is
`nearest` exactly when `pixelArt` holds and both target dimensions are
at least the source's, else `lanczos3`. -/
def resize (source : SourceImage) (width height : Int) (pixelArt : Bool) :
    Except FaviconError ResizeOp :=
  if width ≤ 0 ∨ height ≤ 0 then Except.error FaviconError.renderError
  else if source.metadata.format = "svg" then
    Except.ok { width, height, fitContain := true, background := "#00000000",
                kernel := none, alphaEnsured := false, svgDensity := true }
  else
    Except.ok { width, height, fitContain := true, background := "#00000000",
                kernel := some (if pixelArt ∧ (source.metadata.width : Int) ≤ width ∧
                                  (source.metadata.height : Int) ≤ height
                                then Kernel.nearest else Kernel.lanczos3),
                alphaEnsured := true, svgDensity := false }

/-- The canvas produced by `Images.createBlankImage`: its dimensions,
channel count, fill colour and whether `ensureAlpha` was applied. -/
structure BlankImage where
  width : Nat
  height : Nat
  channels : Nat
  background : String
  alphaEnsured : Bool
deriving DecidableEq, Repr, Inhabited

/-- helpers.ts `Images.createBlankImage`. The JavaScript test
`!background || background === "transparent"` treats an absent option
and the empty string as falsy; the transparent canvas is 4-channel with
fill `#00000000` and gets `ensureAlpha`, the opaque one is 3-channel
with the given colour. -/
def createBlankImage (width height : Nat) (background : Option String) : BlankImage :=
  let transparent : Bool :=
    match background with
    | none => true
    | some s => s = "" || s = "transparent"
  { width, height,
    channels := if transparent then 4 else 3,
    background := if transparent then "#00000000" else background.getD "",
    alphaEnsured := transparent }

/-- `Math.round (a / b)` for natural `a` and positive natural `b`
(JavaScript rounds half up for non-negative arguments). -/
def mathRound (a b : Nat) : Nat := (2 * a + b) / (2 * b)

/-- Everything `createPlaneFavicon` assembles for one plane: the offset,
the inner content dimensions handed to `bestSource`/`resize`, the chosen
source, the recorded resize call, the canvas, the composite position and
whether the pipeline was rotated by 90 degrees. -/
structure Plane where
  offset : Nat
  innerWidth : Int
  innerHeight : Int
  source : SourceImage
  resized : ResizeOp
  canvas : BlankImage
  compositeLeft : Nat
  compositeTop : Nat
  rotated : Bool
deriving DecidableEq, Repr, Inhabited

/-- Output width of the finished plane: sharp's 90-degree rotation swaps
the two canvas dimensions, compositing and encoding keep them. -/
def Plane.outputWidth (p : Plane) : Nat :=
  if p.rotated then p.canvas.height else p.canvas.width

/-- Output height of the finished plane, the counterpart of
`Plane.outputWidth`. -/
def Plane.outputHeight (p : Plane) : Nat :=
  if p.rotated then p.canvas.width else p.canvas.height

/-- The contents of a produced favicon artifact: a PNG-encoded plane, a
raw (uncompressed sRGB) plane, or an ICO container holding the raw
planes handed to the `toIco` encoder in order (the encoder itself lives
outside this core). -/
inductive FaviconContents where
  | png : Plane → FaviconContents
  | raw : Plane → FaviconContents
  | ico : List Plane → FaviconContents
deriving DecidableEq, Repr, Inhabited

/-- The raw plane under a `raw` contents value, `none` otherwise; models
the `image.contents as RawImage` cast in `createFavicon`. -/
def FaviconContents.rawPlane : FaviconContents → Option Plane
  | .raw p => some p
  | _ => none

/-- The single plane under a `png` or `raw` contents value. -/
def FaviconContents.planePart : FaviconContents → Option Plane
  | .png p => some p
  | .raw p => some p
  | .ico _ => none

/-- Whether a contents value is an ICO container. -/
def FaviconContents.isIco : FaviconContents → Bool
  | .ico _ => true
  | _ => false

/-- A named artifact, mirroring `FaviconImage` in the source. -/
structure FaviconImage where
  name : String
  contents : FaviconContents
deriving DecidableEq, Repr, Inhabited

/-- The plane of a successful single-plane render, `none` on failure or
for a container artifact. -/
def planeOf (e : Except FaviconError FaviconImage) : Option Plane :=
  match e with
  | Except.ok img => img.contents.planePart
  | Except.error _ => none

/-- The `offset` local of `createPlaneFavicon`:
`Math.round(max(width, height) * options.offset / 100) || 0`. An absent
offset makes the product `NaN`, which `|| 0` turns into 0, modelled by
`getD 0`; a computed 0 also stays 0 under `|| 0`. -/
def offsetPx (options : IconPlaneOptions) : Nat :=
  (options.offset.map (fun pct => mathRound (max options.width options.height * pct) 100)).getD 0

/-- The `width` local of `createPlaneFavicon`: the inner content width
`options.width - offset * 2` (a JavaScript number, so possibly
negative: `Int`). -/
def innerWidthPx (options : IconPlaneOptions) : Int :=
  (options.width : Int) - offsetPx options * 2

/-- The `height` local of `createPlaneFavicon`: the inner content height
`options.height - offset * 2`. -/
def innerHeightPx (options : IconPlaneOptions) : Int :=
  (options.height : Int) - offsetPx options * 2

/-- helpers.ts `Images.createPlaneFavicon`: compute the pixel offset
(`Math.round(max(w, h) * offset / 100) || 0`, with an absent offset
giving `NaN || 0 = 0`), shrink to the inner dimensions, pick the best
source, resize it, build the canvas from the width/height/background
options (the `transparent` option is not consulted), composite at
`(offset, offset)`, optionally rotate by 90 degrees, and emit raw or
PNG contents as requested. The `offset`/`width`/`height` locals of the
source are the definitions `offsetPx`/`innerWidthPx`/`innerHeightPx`. -/
def createPlaneFavicon (sourceset : List SourceImage) (options : IconPlaneOptions)
    (name : String) (raw : Bool) : Except FaviconError FaviconImage :=
  match bestSource sourceset (innerWidthPx options) (innerHeightPx options) with
  | none => Except.error FaviconError.emptySourceset
  | some source =>
    match resize source (innerWidthPx options) (innerHeightPx options) options.pixelArt with
    | Except.error e => Except.error e
    | Except.ok image =>
      let canvas := createBlankImage options.width options.height options.background
      let plane : Plane :=
        { offset := offsetPx options, innerWidth := innerWidthPx options,
          innerHeight := innerHeightPx options, source, resized := image,
          canvas, compositeLeft := offsetPx options, compositeTop := offsetPx options,
          rotated := options.rotate }
      Except.ok { name, contents := if raw then FaviconContents.raw plane else FaviconContents.png plane }

/-- The characters of the basename of a path: everything after the last
slash. Part of the model of Node's `path.extname`. -/
def basenameChars (cs : List Char) : List Char :=
  (cs.reverse.takeWhile (fun c => ¬ c = '/')).reverse

/-- Extension of a basename: from the last dot to the end, empty when
there is no dot or the only dot starts the name. Part of the model of
Node's `path.extname`. -/
def extnameChars (base : List Char) : List Char :=
  if '.' ∈ base then
    let tail := (base.reverse.takeWhile (fun c => ¬ c = '.')).reverse
    let i := base.length - tail.length - 1
    if i = 0 then [] else base.drop i
  else []

/-- Model of Node's `path.extname` (external to the repository): the
substring of the basename from its last dot, empty when the basename has
no dot or starts with its only dot. -/
def extname (p : String) : String :=
  String.mk (extnameChars (basenameChars p.toList))

/-- One entry of `IconOptions.sizes`. -/
structure IconSize where
  width : Nat
  height : Nat
deriving DecidableEq, Repr, Inhabited

/-- The per-icon options record handed to `createFavicon` (declared in
the excluded config layer; the fields are the ones helpers.ts reads).
`background` holds the string form of the option, matching what
`asString` extracts from a string-valued option. -/
structure IconOptions where
  sizes : List IconSize
  offset : Option Nat
  pixelArt : Option Bool
  background : Option String
  transparent : Bool
  rotate : Bool
deriving DecidableEq, Repr, Inhabited

/-- helpers.ts `flattenIconOptions`: one `IconPlaneOptions` per size,
with `offset` defaulted to 0 (`?? 0`) and `pixelArt` to `false`. -/
def flattenIconOptions (iconOptions : IconOptions) : List IconPlaneOptions :=
  iconOptions.sizes.map (fun size =>
    { width := size.width, height := size.height,
      offset := some (iconOptions.offset.getD 0),
      pixelArt := iconOptions.pixelArt.getD false,
      background := iconOptions.background,
      transparent := iconOptions.transparent,
      rotate := iconOptions.rotate })

/-- The sequential loop of helpers.ts `mapAsync` (the win32 branch),
generalised over the starting index: awaits each computation in input
order and pushes its result. -/
def mapAsyncSeqGo (f : α → Nat → Except ε β) : List α → Nat → Except ε (List β)
  | [], _ => Except.ok []
  | x :: xs, i =>
    (f x i).bind (fun r => (mapAsyncSeqGo f xs (i + 1)).bind (fun rest => Except.ok (r :: rest)))

/-- The win32 branch of helpers.ts `mapAsync`: strictly sequential, in
input order, starting at index 0. -/
def mapAsyncSeq (inputs : List α) (f : α → Nat → Except ε β) : Except ε (List β) :=
  mapAsyncSeqGo f inputs 0

/-- `Array.prototype.map` with the element index, generalised over the
starting index. -/
def mapWithIndexFrom (f : Nat → α → β) : List α → Nat → List β
  | [], _ => []
  | x :: xs, i => f i x :: mapWithIndexFrom f xs (i + 1)

/-- `Promise.all`: succeeds with all results in order, or fails with the
first failure. -/
def promiseAll : List (Except ε β) → Except ε (List β)
  | [] => Except.ok []
  | e :: es => e.bind (fun v => (promiseAll es).bind (fun vs => Except.ok (v :: vs)))

/-- The concurrent branch of helpers.ts `mapAsync`:
`Promise.all(inputs.map(computation))`. -/
def mapAsyncConc (inputs : List α) (f : α → Nat → Except ε β) : Except ε (List β) :=
  promiseAll (mapWithIndexFrom (fun i x => f x i) inputs 0)

/-- helpers.ts `mapAsync`: sequential on win32 (sharp is not safely
reentrant there), concurrent elsewhere. The host test
`platform === "win32"` is passed in as a parameter. -/
def mapAsync (win32 : Bool) (inputs : List α) (f : α → Nat → Except ε β) :
    Except ε (List β) :=
  if win32 then mapAsyncSeq inputs f else mapAsyncConc inputs f

/-- The `.rawdata` name `createFavicon` gives each rendered plane. -/
def rawPlaneName (props : IconPlaneOptions) : String :=
  toString props.width ++ "x" ++ toString props.height ++ ".rawdata"

/-- helpers.ts `Images.createFavicon`: when the name's extension is
`.ico` or the flattened spec list does not have exactly one entry, every
spec is rendered as a raw plane through `mapAsync` and the ordered raw
planes are handed to the `toIco` container encoder (modelled by the
`ico` constructor); otherwise the single spec is rendered directly as an
encoded image under the artifact name. -/
def createFavicon (win32 : Bool) (sourceset : List SourceImage) (name : String)
    (iconOptions : IconOptions) : Except FaviconError FaviconImage :=
  let properties := flattenIconOptions iconOptions
  if extname name = ".ico" ∨ properties.length ≠ 1 then
    (mapAsync win32 properties (fun props _ =>
        createPlaneFavicon sourceset props (rawPlaneName props) true)).bind
      (fun images => Except.ok
        { name, contents := FaviconContents.ico
            (images.filterMap (fun image => image.contents.rawPlane)) })
  else
    createPlaneFavicon sourceset (properties.headD default) name false

/-- The runtime shape of a `sourceImages` argument: a buffer, a path
string, an array of such values (possibly nested, which the code
rejects), or any other value. -/
inductive SrcVal where
  | buf : List Nat → SrcVal
  | str : String → SrcVal
  | arr : List SrcVal → SrcVal
  | other : SrcVal

/-- `Array.isArray`. -/
def SrcVal.isArr : SrcVal → Bool
  | .arr _ => true
  | _ => false

/-- The buffer branch of `sourceImages`: decode the buffer's metadata
(`sharp(src).metadata()`, abstracted as the `decode` environment) and
wrap it as a singleton source list, or reject with the invalid-buffer
error. Also reached by the string branch after reading the file. -/
def decodeBuffer (decode : List Nat → Option Metadata) (b : List Nat) :
    Except FaviconError (List SourceImage) :=
  match decode b with
  | some metadata => Except.ok [{ data := b, metadata }]
  | none => Except.error FaviconError.invalidImageBuffer

/-- helpers.ts `sourceImages`, parameterised over the image decoder and
the file system (`fs.promises.readFile`). A buffer is decoded; a string
is read and its bytes decoded the same way; an array is rejected when it
contains a nested array, rejected when empty, and otherwise processed
element-wise through `mapAsync` with the per-element results
concatenated (`flat()`); anything else is rejected as an invalid source
type. -/
def sourceImages (decode : List Nat → Option Metadata)
    (readFile : String → Option (List Nat)) (win32 : Bool) :
    SrcVal → Except FaviconError (List SourceImage)
  | SrcVal.buf b => decodeBuffer decode b
  | SrcVal.str s =>
    match readFile s with
    | some b => decodeBuffer decode b
    | none => Except.error FaviconError.fileReadError
  | SrcVal.arr xs =>
    if xs.any SrcVal.isArr then Except.error FaviconError.invalidSourceType
    else if xs.isEmpty then Except.error FaviconError.noSource
    else
      (mapAsync win32 xs.attach (fun x _ => sourceImages decode readFile win32 x.1)).bind
        (fun images => Except.ok images.flatten)
  | SrcVal.other => Except.error FaviconError.invalidSourceType
termination_by v => sizeOf v
decreasing_by
  have h := List.sizeOf_lt_of_mem x.2
  simp only [SrcVal.arr.sizeOf_spec]
  omega

/-- Sample raster metadata used by concrete witnesses below. -/
def mdRaster : Metadata := { width := 16, height := 16, format := "png" }

/-- Sample vector metadata used by concrete witnesses below. -/
def mdSvg : Metadata := { width := 100, height := 100, format := "svg" }

/-- A sample raster source. -/
def srcA : SourceImage := { data := [1], metadata := mdRaster }

/-- A second sample raster source with the same metadata as `srcA` but
different bytes: it ties with `srcA` on every ranking criterion. -/
def srcB : SourceImage := { data := [2], metadata := mdRaster }

/-- A sample vector source. -/
def srcSvg : SourceImage := { data := [3], metadata := mdSvg }

/-- Baseline plane options for concrete witnesses: 16 by 16, no offset,
no background, not pixel art, no rotation. -/
def optsPlain : IconPlaneOptions :=
  { width := 16, height := 16, offset := none, pixelArt := false,
    background := none, transparent := true, rotate := false }

/-- Icon options with an empty size list, for the empty-spec-list
counterexample. -/
def ioEmpty : IconOptions :=
  { sizes := [], offset := none, pixelArt := none, background := none,
    transparent := true, rotate := false }

/-- Icon options with exactly one 16 by 16 size. -/
def ioOne : IconOptions :=
  { sizes := [{ width := 16, height := 16 }], offset := none, pixelArt := none,
    background := none, transparent := true, rotate := false }

/-- A sample decoder for the loader witnesses: only the buffer `[7]`
decodes (to raster metadata), everything else is invalid. -/
def decodeSample : List Nat → Option Metadata :=
  fun b => if b = [7] then some mdRaster else none

/-- A sample file system for the loader witnesses: no file exists. -/
def readFileSample : String → Option (List Nat) := fun _ => none

/-- The comparator vanishes on identical key arrays. -/
theorem arrayComparator_refl (a : List Int) : arrayComparator a a = 0 := by
  induction a with
  | nil => rfl
  | cons x xs ih => simp [arrayComparator, ih]

/-- Swapping the comparator's arguments negates its verdict. -/
theorem arrayComparator_swap (a b : List Int) :
    arrayComparator a b = -arrayComparator b a := by
  induction a generalizing b with
  | nil => cases b <;> simp [arrayComparator]
  | cons x xs ih =>
    cases b with
    | nil => simp [arrayComparator]
    | cons y ys =>
      simp only [arrayComparator]
      by_cases hxy : x = y
      · simp [hxy, ih ys]
      · have hyx : ¬ y = x := fun h => hxy h.symm
        simp only [hxy, hyx, ne_eq, not_false_eq_true, if_true, if_false]
        rcases lt_or_gt_of_ne hxy with h | h
        · simp [h, not_lt_of_gt h]
        · simp [h, not_lt_of_gt h]

/-- The non-strict verdict of the comparator is transitive. -/
theorem arrayComparator_trans (a b c : List Int)
    (h1 : arrayComparator a b ≤ 0) (h2 : arrayComparator b c ≤ 0) :
    arrayComparator a c ≤ 0 := by
  induction a generalizing b c with
  | nil => cases c <;> simp [arrayComparator]
  | cons x xs ih =>
    cases b with
    | nil => simp [arrayComparator] at h1
    | cons y ys =>
      cases c with
      | nil => simp [arrayComparator] at h2
      | cons z zs =>
        simp only [arrayComparator] at h1 h2 ⊢
        split_ifs at h1 h2 ⊢ <;>
          first
            | (exact ih ys zs h1 h2)
            | omega

/-- The fold underlying `minBy` only ever returns one of the elements it
has seen. -/
theorem minBy_foldl_mem (cmp : α → α → Int) (l : List α) (a : α) :
    l.foldl (fun acc cur => if cmp acc cur < 0 then acc else cur) a ∈ a :: l := by
  induction l generalizing a with
  | nil => simp
  | cons x xs ih =>
    simp only [List.foldl_cons]
    by_cases hc : cmp a x < 0
    · simp only [hc, if_true]
      rcases List.mem_cons.mp (ih a) with h | h
      · simp [h]
      · simp [List.mem_cons_of_mem, h]
    · simp only [hc, if_false]
      rcases List.mem_cons.mp (ih x) with h | h
      · simp [h]
      · simp [List.mem_cons_of_mem, h]

/-- Given a comparator that negates under swapping and whose non-strict
verdict is transitive, the fold underlying `minBy` returns an element
that compares at or below every element it has seen. -/
theorem minBy_foldl_min (cmp : α → α → Int)
    (hswap : ∀ x y, cmp x y = -cmp y x)
    (htrans : ∀ x y z, cmp x y ≤ 0 → cmp y z ≤ 0 → cmp x z ≤ 0)
    (l : List α) (a : α) :
    ∀ t ∈ a :: l, cmp (l.foldl (fun acc cur => if cmp acc cur < 0 then acc else cur) a) t ≤ 0 := by
  induction l generalizing a with
  | nil =>
    intro t ht
    have h := List.mem_singleton.mp ht
    subst h
    simp only [List.foldl_nil]
    have h0 := hswap t t
    omega
  | cons x xs ih =>
    intro t ht
    simp only [List.foldl_cons]
    by_cases hc : cmp a x < 0
    · simp only [hc, if_true]
      rcases List.mem_cons.mp ht with h | h
      · exact ih a t (h ▸ List.mem_cons_self a xs)
      · rcases List.mem_cons.mp h with h2 | h2
        · subst h2
          have ha := ih a a (List.mem_cons_self a xs)
          exact htrans _ a t ha (le_of_lt hc)
        · exact ih a t (List.mem_cons_of_mem a h2)
    · simp only [hc, if_false]
      rcases List.mem_cons.mp ht with h | h
      · subst h
        have hx := ih x x (List.mem_cons_self x xs)
        have hxa : cmp x t ≤ 0 := by have h3 := hswap t x; omega
        exact htrans _ x t hx hxa
      · rcases List.mem_cons.mp h with h2 | h2
        · exact h2 ▸ ih x x (List.mem_cons_self x xs)
        · exact ih x t (List.mem_cons_of_mem x h2)

/-- When an element `x` of the list compares at or below everything in
the list, the fold underlying `minBy` ends in the part of the list from
`x` on: equal-ranking elements overwrite the accumulator, so the winner
is the last minimal element. -/
theorem minBy_foldl_last (cmp : α → α → Int)
    (hswap : ∀ x y, cmp x y = -cmp y x)
    (a : α) (l l1 l2 : List α) (x : α)
    (hdec : a :: l = l1 ++ x :: l2)
    (hmin : ∀ t ∈ a :: l, cmp x t ≤ 0) :
    l.foldl (fun acc cur => if cmp acc cur < 0 then acc else cur) a ∈ x :: l2 := by
  cases l1 with
  | nil =>
    simp only [List.nil_append] at hdec
    rw [← hdec]
    exact minBy_foldl_mem cmp l a
  | cons b l1x =>
    simp only [List.cons_append] at hdec
    injection hdec with h1 h2
    subst h2
    rw [List.foldl_append]
    simp only [List.foldl_cons]
    have hacc := minBy_foldl_mem cmp l1x a
    have hxacc : cmp x (l1x.foldl (fun acc cur => if cmp acc cur < 0 then acc else cur) a) ≤ 0 := by
      apply hmin
      rcases List.mem_cons.mp hacc with h | h
      · simp [h]
      · exact List.mem_cons_of_mem a (List.mem_append_left _ h)
    have hstep : ¬ cmp (l1x.foldl (fun acc cur => if cmp acc cur < 0 then acc else cur) a) x < 0 := by
      have h3 := hswap x (l1x.foldl (fun acc cur => if cmp acc cur < 0 then acc else cur) a)
      omega
    simp only [hstep, if_false]
    exact minBy_foldl_mem cmp l2 x

/-- The array key handed to the comparator is the spec's ranking triple
written out as a three-element array. -/
theorem iconKey_eq_keyTuple (icon : SourceImage) (sideSize : Int) :
    iconKey icon sideSize =
      [(keyTuple icon sideSize).1, (keyTuple icon sideSize).2.1, (keyTuple icon sideSize).2.2] :=
  rfl

/-- On three-element keys, the comparator's non-strict verdict is the
specification's lexicographic order on triples. -/
theorem arrayComparator_le_iff_keyLe (a1 a2 a3 b1 b2 b3 : Int) :
    arrayComparator [a1, a2, a3] [b1, b2, b3] ≤ 0 ↔ keyLe (a1, a2, a3) (b1, b2, b3) := by
  simp only [arrayComparator, keyLe]
  split_ifs <;> omega

/-- On three-element keys, the comparator's verdict is zero exactly on
equal keys. -/
theorem arrayComparator_eq_zero_iff (a1 a2 a3 b1 b2 b3 : Int) :
    arrayComparator [a1, a2, a3] [b1, b2, b3] = 0 ↔ (a1 = b1 ∧ a2 = b2 ∧ a3 = b3) := by
  simp only [arrayComparator]
  split_ifs <;> first
    | omega
    | (simp only [false_iff]; omega)

/-- Key comparison between two sources, rephrased through the spec's
lexicographic order on ranking triples. -/
theorem iconKey_le_iff (s t : SourceImage) (side : Int) :
    arrayComparator (iconKey s side) (iconKey t side) ≤ 0 ↔
      keyLe (keyTuple s side) (keyTuple t side) := by
  rw [iconKey_eq_keyTuple s side, iconKey_eq_keyTuple t side, arrayComparator_le_iff_keyLe]

/-- Equal ranking triples give comparator verdict zero. -/
theorem iconKey_cmp_zero_of_tie (s t : SourceImage) (side : Int)
    (h : keyTuple s side = keyTuple t side) :
    arrayComparator (iconKey s side) (iconKey t side) = 0 := by
  rw [iconKey_eq_keyTuple s side, iconKey_eq_keyTuple t side, h]
  exact arrayComparator_refl _

/-- C4: for every non-empty source list and target dimensions,
`bestSource` returns a candidate that is minimal under the lexicographic
order on the ranking triple (format class: SVG before raster; scale
direction: no-upscale before upscale; size distance: smaller better);
the selection is a pure function of its arguments (hence deterministic),
and a vector source always ranks strictly before any raster source. -/
theorem c4_bestSource_lex_minimal (sourceset : List SourceImage) (width height : Int)
    (hne : sourceset ≠ []) :
    ∃ m, bestSource sourceset width height = some m ∧ m ∈ sourceset ∧
      (∀ t ∈ sourceset, keyLe (keyTuple m (max width height)) (keyTuple t (max width height))) ∧
      (∀ s t : SourceImage, s.metadata.format = "svg" → t.metadata.format ≠ "svg" →
        keyLe (keyTuple s (max width height)) (keyTuple t (max width height)) ∧
        ¬ keyLe (keyTuple t (max width height)) (keyTuple s (max width height))) := by
  cases sourceset with
  | nil => exact absurd rfl hne
  | cons a rest =>
    refine ⟨rest.foldl (fun acc cur =>
        if arrayComparator (iconKey acc (max width height)) (iconKey cur (max width height)) < 0
        then acc else cur) a, rfl, ?_, ?_, ?_⟩
    · exact minBy_foldl_mem
        (fun s t => arrayComparator (iconKey s (max width height)) (iconKey t (max width height)))
        rest a
    · intro t ht
      have h := minBy_foldl_min
        (fun s t => arrayComparator (iconKey s (max width height)) (iconKey t (max width height)))
        (fun x y => arrayComparator_swap _ _)
        (fun x y z hxy hyz => arrayComparator_trans _ _ _ hxy hyz) rest a t ht
      exact (iconKey_le_iff _ _ _).mp h
    · intro s t hs ht
      have h1 : (keyTuple s (max width height)).1 = 0 := by simp [keyTuple, hs]
      have h2 : (keyTuple t (max width height)).1 = 1 := by simp [keyTuple, ht]
      constructor
      · exact Or.inl (by rw [h1, h2]; norm_num)
      · intro hcon
        rcases hcon with h | ⟨h, _⟩
        · rw [h1, h2] at h; norm_num at h
        · rw [h1, h2] at h; norm_num at h

/-- Witness for C4 at a concrete input: a raster and a vector source for
a 16 by 16 target. -/
theorem c4_bestSource_lex_minimal_witness :
    ∃ m, bestSource [srcA, srcSvg] 16 16 = some m ∧ m ∈ [srcA, srcSvg] ∧
      (∀ t ∈ [srcA, srcSvg], keyLe (keyTuple m (max 16 16)) (keyTuple t (max 16 16))) ∧
      (∀ s t : SourceImage, s.metadata.format = "svg" → t.metadata.format ≠ "svg" →
        keyLe (keyTuple s (max 16 16)) (keyTuple t (max 16 16)) ∧
        ¬ keyLe (keyTuple t (max 16 16)) (keyTuple s (max 16 16))) :=
  c4_bestSource_lex_minimal [srcA, srcSvg] 16 16 (by decide)

/-- C10: `bestSource` on the empty list has no value to return (the
underlying reduce throws, modelled as `none`), and on any non-empty list
it returns an element of that list. -/
theorem c10_bestSource_empty_throws_member (sourceset : List SourceImage) (width height : Int) :
    bestSource [] width height = none ∧
      (sourceset ≠ [] → ∃ m, bestSource sourceset width height = some m ∧ m ∈ sourceset) := by
  refine ⟨rfl, fun hne => ?_⟩
  cases sourceset with
  | nil => exact absurd rfl hne
  | cons a rest =>
    exact ⟨_, rfl, minBy_foldl_mem
      (fun s t => arrayComparator (iconKey s (max width height)) (iconKey t (max width height)))
      rest a⟩

/-- Witness for C10 at a concrete input. -/
theorem c10_bestSource_empty_throws_member_witness :
    bestSource [] 16 16 = none ∧
      ∃ m, bestSource [srcA, srcB] 16 16 = some m ∧ m ∈ [srcA, srcB] :=
  ⟨(c10_bestSource_empty_throws_member [srcA, srcB] 16 16).1,
   (c10_bestSource_empty_throws_member [srcA, srcB] 16 16).2 (by decide)⟩

/-- C1 counterexample: `srcA` and `srcB` tie on all three ranking
criteria (identical metadata), yet `bestSource` returns `srcB`, the
second of the two in input order, not the first-encountered one. -/
theorem c1_counterexample :
    keyTuple srcA 16 = keyTuple srcB 16 ∧
    bestSource [srcA, srcB] 16 16 = some srcB ∧
    srcB ≠ srcA := by
  refine ⟨rfl, rfl, ?_⟩
  decide

/-- C1 (amended): ties resolve to the last-encountered tied candidate:
whenever the candidate at position `i` ties with the selected source on
the full ranking triple, the selected source occurs at or after position
`i` in the input order. -/
theorem c1_amended_ties_resolve_last (sourceset : List SourceImage) (width height : Int)
    (m : SourceImage) (hm : bestSource sourceset width height = some m)
    (i : Nat) (hi : i < sourceset.length)
    (htie : keyTuple (sourceset.get ⟨i, hi⟩) (max width height) = keyTuple m (max width height)) :
    m ∈ sourceset.drop i := by
  cases sourceset with
  | nil => simp at hi
  | cons a rest =>
    have hm2 : rest.foldl (fun acc cur =>
        if arrayComparator (iconKey acc (max width height)) (iconKey cur (max width height)) < 0
        then acc else cur) a = m := Option.some.inj hm
    have hmin : ∀ t ∈ a :: rest,
        arrayComparator (iconKey m (max width height)) (iconKey t (max width height)) ≤ 0 := by
      intro t ht
      have h := minBy_foldl_min
        (fun s t => arrayComparator (iconKey s (max width height)) (iconKey t (max width height)))
        (fun x y => arrayComparator_swap _ _)
        (fun x y z hxy hyz => arrayComparator_trans _ _ _ hxy hyz) rest a t ht
      rw [hm2] at h
      exact h
    have hxmin : ∀ t ∈ a :: rest,
        arrayComparator (iconKey ((a :: rest).get ⟨i, hi⟩) (max width height))
          (iconKey t (max width height)) ≤ 0 := by
      intro t ht
      have h0 := iconKey_cmp_zero_of_tie ((a :: rest).get ⟨i, hi⟩) m (max width height) htie
      exact arrayComparator_trans _ _ _ (le_of_eq h0) (hmin t ht)
    have hdec : a :: rest =
        (a :: rest).take i ++ (a :: rest).get ⟨i, hi⟩ :: (a :: rest).drop (i + 1) := by
      conv_lhs => rw [← List.take_append_drop i (a :: rest)]
      rw [List.drop_eq_getElem_cons hi]
      rfl
    have hlast := minBy_foldl_last
      (fun s t => arrayComparator (iconKey s (max width height)) (iconKey t (max width height)))
      (fun x y => arrayComparator_swap _ _) a rest
      ((a :: rest).take i) ((a :: rest).drop (i + 1)) ((a :: rest).get ⟨i, hi⟩) hdec hxmin
    rw [hm2] at hlast
    rw [List.drop_eq_getElem_cons hi]
    exact hlast

/-- Witness for C1 (amended) at the concrete tied pair: the selected
source `srcB` occurs at or after the tied position 0. -/
theorem c1_amended_ties_resolve_last_witness :
    srcB ∈ ([srcA, srcB] : List SourceImage).drop 0 :=
  c1_amended_ties_resolve_last [srcA, srcB] 16 16 srcB (by decide) 0 (by decide) (by decide)

/-- A successful resize records exactly the requested target
dimensions (the `contain` fit pads, never crops, to reach them). -/
theorem resize_ok_dims (source : SourceImage) (width height : Int) (pixelArt : Bool)
    (op : ResizeOp) (h : resize source width height pixelArt = Except.ok op) :
    op.width = width ∧ op.height = height := by
  unfold resize at h
  split_ifs at h <;> cases h <;> exact ⟨rfl, rfl⟩

/-- Destructuring of a successful `createPlaneFavicon` run: the chosen
source, the recorded resize and the exact shape of the produced plane. -/
theorem createPlaneFavicon_ok (sourceset : List SourceImage) (opts : IconPlaneOptions)
    (name : String) (raw : Bool) (p : Plane)
    (h : planeOf (createPlaneFavicon sourceset opts name raw) = some p) :
    ∃ source image,
      bestSource sourceset (innerWidthPx opts) (innerHeightPx opts) = some source ∧
      resize source (innerWidthPx opts) (innerHeightPx opts) opts.pixelArt = Except.ok image ∧
      p = { offset := offsetPx opts, innerWidth := innerWidthPx opts,
            innerHeight := innerHeightPx opts, source := source, resized := image,
            canvas := createBlankImage opts.width opts.height opts.background,
            compositeLeft := offsetPx opts, compositeTop := offsetPx opts,
            rotated := opts.rotate } := by
  simp only [createPlaneFavicon] at h
  split at h
  · simp [planeOf] at h
  · rename_i source hbs
    split at h
    · simp [planeOf] at h
    · rename_i image hrs
      refine ⟨source, image, hbs, hrs, ?_⟩
      cases raw <;> simp [planeOf, FaviconContents.planePart] at h <;> simp [h]

/-- C6: for raster (non-vector) sources, `resize` ensures an alpha
channel, always uses a `contain` fit over a fully transparent
background, and picks the nearest-neighbour kernel exactly when
`pixelArt` is set and both target dimensions are at least the source's
(otherwise `lanczos3`). -/
theorem c6_resize_raster_kernel (source : SourceImage) (width height : Int) (pixelArt : Bool)
    (op : ResizeOp) (hsvg : source.metadata.format ≠ "svg")
    (h : resize source width height pixelArt = Except.ok op) :
    op.alphaEnsured = true ∧ op.fitContain = true ∧ op.background = "#00000000" ∧
    (op.kernel = some Kernel.nearest ↔
      (pixelArt = true ∧ (source.metadata.width : Int) ≤ width ∧
        (source.metadata.height : Int) ≤ height)) ∧
    (¬(pixelArt = true ∧ (source.metadata.width : Int) ≤ width ∧
        (source.metadata.height : Int) ≤ height) →
      op.kernel = some Kernel.lanczos3) := by
  unfold resize at h
  rw [if_neg hsvg] at h
  by_cases h1 : width ≤ 0 ∨ height ≤ 0
  · rw [if_pos h1] at h; cases h
  · rw [if_neg h1] at h
    cases h
    by_cases h3 : pixelArt = true ∧ (source.metadata.width : Int) ≤ width ∧
        (source.metadata.height : Int) ≤ height
    · refine ⟨rfl, rfl, rfl, ?_, ?_⟩
      · simp [h3]
      · intro hcon; exact absurd h3 hcon
    · refine ⟨rfl, rfl, rfl, ?_, fun _ => ?_⟩
      · simp [h3]
      · simp [h3]

/-- Witness for C6: `srcA` is a 16 by 16 raster image; upscaling it to
32 by 32 with `pixelArt` picks the nearest-neighbour kernel. -/
theorem c6_resize_raster_kernel_witness :
    ((resize srcA 32 32 true).toOption.getD default).alphaEnsured = true ∧
    ((resize srcA 32 32 true).toOption.getD default).fitContain = true ∧
    ((resize srcA 32 32 true).toOption.getD default).background = "#00000000" ∧
    ((resize srcA 32 32 true).toOption.getD default).kernel = some Kernel.nearest := by
  have h := c6_resize_raster_kernel srcA 32 32 true
    ((resize srcA 32 32 true).toOption.getD default) (by decide) (by rfl)
  exact ⟨h.1, h.2.1, h.2.2.1, h.2.2.2.1.mpr (by decide)⟩

/-- C7: the successful plane's pixel offset is
`round(max(width, height) * offsetPercent / 100)` with 0 for an absent
offset, the content is resized to the inner dimensions
`width - 2 * offset` by `height - 2 * offset`, and it is composited onto
the canvas at `(offset, offset)`. -/
theorem c7_offset_inner_composite (sourceset : List SourceImage) (opts : IconPlaneOptions)
    (name : String) (raw : Bool) (p : Plane)
    (h : planeOf (createPlaneFavicon sourceset opts name raw) = some p) :
    p.offset =
      (opts.offset.map (fun pct => mathRound (max opts.width opts.height * pct) 100)).getD 0 ∧
    (opts.offset = none → p.offset = 0) ∧
    p.innerWidth = (opts.width : Int) - 2 * p.offset ∧
    p.innerHeight = (opts.height : Int) - 2 * p.offset ∧
    p.resized.width = p.innerWidth ∧
    p.resized.height = p.innerHeight ∧
    p.compositeLeft = p.offset ∧ p.compositeTop = p.offset := by
  obtain ⟨source, image, hbs, hrs, rfl⟩ := createPlaneFavicon_ok sourceset opts name raw p h
  obtain ⟨hw, hh⟩ := resize_ok_dims source (innerWidthPx opts) (innerHeightPx opts)
    opts.pixelArt image hrs
  refine ⟨rfl, ?_, ?_, ?_, hw, hh, rfl, rfl⟩
  · intro h0; simp [offsetPx, h0]
  · simp only [innerWidthPx]; ring
  · simp only [innerHeightPx]; ring

/-- Witness for C7 at a concrete input: 32 by 32 plane with a 10 percent
offset gives offset 3 and inner dimensions 26. -/
theorem c7_offset_inner_composite_witness :
    ((planeOf (createPlaneFavicon [srcA]
        { width := 32, height := 32, offset := some 10, pixelArt := false,
          background := none, transparent := true, rotate := false } "x.png" false)).getD
      default).offset = 3 ∧
    ((planeOf (createPlaneFavicon [srcA]
        { width := 32, height := 32, offset := some 10, pixelArt := false,
          background := none, transparent := true, rotate := false } "x.png" false)).getD
      default).innerWidth = 26 ∧
    ((planeOf (createPlaneFavicon [srcA]
        { width := 32, height := 32, offset := some 10, pixelArt := false,
          background := none, transparent := true, rotate := false } "x.png" false)).getD
      default).compositeLeft = 3 := by
  have h := c7_offset_inner_composite [srcA]
    { width := 32, height := 32, offset := some 10, pixelArt := false,
      background := none, transparent := true, rotate := false } "x.png" false
    ((planeOf (createPlaneFavicon [srcA]
        { width := 32, height := 32, offset := some 10, pixelArt := false,
          background := none, transparent := true, rotate := false } "x.png" false)).getD
      default) (by rfl)
  refine ⟨h.1.trans (by decide), h.2.2.1.trans ?_, h.2.2.2.2.2.2.1.trans (h.1.trans (by decide))⟩
  rw [h.1]
  decide

/-- C5 (amended): a successful single-plane render has output pixel
dimensions exactly `(width, height)` when `rotate` is false; when
`rotate` is true the 90-degree rotation swaps them to
`(height, width)`. -/
theorem c5_amended_output_dims (sourceset : List SourceImage) (opts : IconPlaneOptions)
    (name : String) (raw : Bool) (p : Plane)
    (h : planeOf (createPlaneFavicon sourceset opts name raw) = some p) :
    p.outputWidth = (if opts.rotate then opts.height else opts.width) ∧
    p.outputHeight = (if opts.rotate then opts.width else opts.height) := by
  obtain ⟨source, image, hbs, hrs, rfl⟩ := createPlaneFavicon_ok sourceset opts name raw p h
  constructor <;> simp [Plane.outputWidth, Plane.outputHeight, createBlankImage]

/-- Witness for C5 (amended): the unrotated 16 by 16 render measures
16 by 16. -/
theorem c5_amended_output_dims_witness :
    ((planeOf (createPlaneFavicon [srcA] optsPlain "x.png" false)).getD default).outputWidth = 16 ∧
    ((planeOf (createPlaneFavicon [srcA] optsPlain "x.png" false)).getD default).outputHeight = 16 := by
  have h := c5_amended_output_dims [srcA] optsPlain "x.png" false
    ((planeOf (createPlaneFavicon [srcA] optsPlain "x.png" false)).getD default) (by rfl)
  exact ⟨h.1.trans (by decide), h.2.trans (by decide)⟩

/-- C5 counterexample: a valid 16 by 32 plane spec with `rotate` set
renders to 32 by 16, not to the spec's `(width, height) = (16, 32)`. -/
theorem c5_counterexample :
    (planeOf (createPlaneFavicon [srcA]
        { width := 16, height := 32, offset := none, pixelArt := false,
          background := none, transparent := true, rotate := true } "x.png" false)).map
      (fun p => (p.outputWidth, p.outputHeight)) = some (32, 16) ∧
    ((32 : Nat), (16 : Nat)) ≠ ((16 : Nat), (32 : Nat)) := by
  exact ⟨by decide, by decide⟩

/-- C2 (amended): the canvas is 4-channel with an all-zero fill (and
`ensureAlpha`) when the background option is absent, empty, or the
string `transparent`; otherwise it is a 3-channel opaque fill of the
given colour. The plane spec's `transparent` flag plays no part: the
canvas of a rendered plane is exactly `createBlankImage` of the
width/height/background options. -/
theorem c2_amended_canvas (w h : Nat) (bg : Option String) (sourceset : List SourceImage)
    (opts : IconPlaneOptions) (name : String) (raw : Bool) (p : Plane) :
    ((bg = none ∨ bg = some "" ∨ bg = some "transparent") →
      (createBlankImage w h bg).channels = 4 ∧
      (createBlankImage w h bg).background = "#00000000" ∧
      (createBlankImage w h bg).alphaEnsured = true) ∧
    (∀ s : String, bg = some s → s ≠ "" → s ≠ "transparent" →
      (createBlankImage w h bg).channels = 3 ∧
      (createBlankImage w h bg).background = s ∧
      (createBlankImage w h bg).alphaEnsured = false) ∧
    (planeOf (createPlaneFavicon sourceset opts name raw) = some p →
      p.canvas = createBlankImage opts.width opts.height opts.background) := by
  refine ⟨?_, ?_, ?_⟩
  · rintro (rfl | rfl | rfl) <;> simp [createBlankImage]
  · rintro s rfl hs1 hs2
    simp [createBlankImage, hs1, hs2]
  · intro h0
    obtain ⟨source, image, hbs, hrs, rfl⟩ :=
      createPlaneFavicon_ok sourceset opts name raw p h0
    rfl

/-- Witness for C2 (amended) at concrete inputs: a `transparent`
background gives a 4-channel canvas, `red` gives a 3-channel one, and a
rendered plane's canvas is `createBlankImage` of its options. -/
theorem c2_amended_canvas_witness :
    (createBlankImage 16 16 (some "transparent")).channels = 4 ∧
    (createBlankImage 16 16 (some "red")).channels = 3 ∧
    ((planeOf (createPlaneFavicon [srcA] optsPlain "x.png" false)).getD default).canvas =
      createBlankImage 16 16 none := by
  refine ⟨?_, ?_, ?_⟩
  · exact ((c2_amended_canvas 16 16 (some "transparent") [srcA] optsPlain "x.png" false
      default).1 (Or.inr (Or.inr rfl))).1
  · exact ((c2_amended_canvas 16 16 (some "red") [srcA] optsPlain "x.png" false
      default).2.1 "red" rfl (by decide) (by decide)).1
  · exact (c2_amended_canvas 16 16 none [srcA] optsPlain "x.png" false
      ((planeOf (createPlaneFavicon [srcA] optsPlain "x.png" false)).getD default)).2.2 (by rfl)

/-- C2 counterexample: with background `red` and the spec's `transparent`
flag set, the canvas stays 3-channel (no promotion to 4 channels with
full alpha happens); and with the empty-string background the canvas is
4-channel transparent rather than a 3-channel opaque fill. -/
theorem c2_counterexample :
    (planeOf (createPlaneFavicon [srcA]
        { width := 16, height := 16, offset := none, pixelArt := false,
          background := some "red", transparent := true, rotate := false } "x.png" false)).map
      (fun p => (p.canvas.channels, p.canvas.alphaEnsured)) = some (3, false) ∧
    (createBlankImage 16 16 (some "")).channels = 4 := by
  exact ⟨by decide, by decide⟩

/-- The sequential loop equals `Promise.all` over the index-decorated
task list, for any starting index. -/
theorem mapAsyncSeqGo_eq_promiseAll (f : α → Nat → Except ε β) (l : List α) (i : Nat) :
    mapAsyncSeqGo f l i = promiseAll (mapWithIndexFrom (fun j x => f x j) l i) := by
  induction l generalizing i with
  | nil => rfl
  | cons x xs ih => simp only [mapAsyncSeqGo, mapWithIndexFrom, promiseAll, ih]

/-- The two scheduling branches of `mapAsync` agree. -/
theorem mapAsyncSeq_eq_conc (f : α → Nat → Except ε β) (l : List α) :
    mapAsyncSeq l f = mapAsyncConc l f :=
  mapAsyncSeqGo_eq_promiseAll f l 0

/-- A successful sequential run has one result per input, in input
order, each produced by the computation at its own index (shifted by the
starting index). -/
theorem mapAsyncSeqGo_ok_spec (f : α → Nat → Except ε β) (l : List α) (i : Nat)
    (res : List β) (h : mapAsyncSeqGo f l i = Except.ok res) :
    res.length = l.length ∧
    ∀ j (hj : j < l.length) (hr : j < res.length),
      f (l.get ⟨j, hj⟩) (i + j) = Except.ok (res.get ⟨j, hr⟩) := by
  induction l generalizing i res with
  | nil =>
    simp only [mapAsyncSeqGo, Except.ok.injEq] at h
    subst h
    exact ⟨rfl, fun j hj => absurd hj (by simp)⟩
  | cons x xs ih =>
    simp only [mapAsyncSeqGo] at h
    cases hfx : f x i with
    | error e => rw [hfx] at h; cases h
    | ok r =>
      rw [hfx] at h
      cases hgo : mapAsyncSeqGo f xs (i + 1) with
      | error e => rw [hgo] at h; cases h
      | ok rest =>
        rw [hgo] at h
        simp only [Except.bind, Except.ok.injEq] at h
        subst h
        obtain ⟨hlen, hpos⟩ := ih (i + 1) rest hgo
        refine ⟨by simp [hlen], ?_⟩
        intro j hj hr
        cases j with
        | zero => simpa using hfx
        | succ j2 =>
          have hstep := hpos j2 (by simpa using hj) (by simpa using hr)
          have harith : i + 1 + j2 = i + (j2 + 1) := by omega
          rw [harith] at hstep
          simpa using hstep

/-- A successful `mapAsync` run (either mode) has one result per input,
in input order, produced by the computation at the matching index. -/
theorem mapAsync_ok_spec (win32 : Bool) (l : List α) (f : α → Nat → Except ε β)
    (res : List β) (h : mapAsync win32 l f = Except.ok res) :
    res.length = l.length ∧
    ∀ j (hj : j < l.length) (hr : j < res.length),
      f (l.get ⟨j, hj⟩) j = Except.ok (res.get ⟨j, hr⟩) := by
  have hseq : mapAsyncSeq l f = Except.ok res := by
    cases win32 with
    | true => simpa [mapAsync] using h
    | false => rw [mapAsyncSeq_eq_conc]; simpa [mapAsync] using h
  have h0 := mapAsyncSeqGo_ok_spec f l 0 res hseq
  exact ⟨h0.1, fun j hj hr => by simpa using h0.2 j hj hr⟩

/-- When every element's computation succeeds with a value independent of
the index, `mapAsync` succeeds with the element-wise results in input
order, in either scheduling mode. -/
theorem mapAsync_ok_of_forall (win32 : Bool) (l : List α) (g : α → Nat → Except ε β)
    (f2 : α → β) (hg : ∀ x ∈ l, ∀ i, g x i = Except.ok (f2 x)) :
    mapAsync win32 l g = Except.ok (l.map f2) := by
  have hseq : ∀ (lx : List α), (∀ x ∈ lx, ∀ i, g x i = Except.ok (f2 x)) →
      ∀ i, mapAsyncSeqGo g lx i = Except.ok (lx.map f2) := by
    intro lx
    induction lx with
    | nil => intro _ i; rfl
    | cons x xs ih =>
      intro hx i
      simp only [mapAsyncSeqGo]
      rw [hx x (List.mem_cons_self x xs) i,
        ih (fun y hy j => hx y (List.mem_cons_of_mem x hy) j) (i + 1)]
      rfl
  have h0 : mapAsyncSeq l g = Except.ok (l.map f2) := hseq l hg 0
  cases win32 with
  | true => simpa [mapAsync] using h0
  | false =>
    have h1 := mapAsyncSeq_eq_conc g l
    simp only [mapAsync, if_false, Bool.false_eq_true]
    rw [← h1]
    exact h0

/-- C9: `mapAsync` preserves positional correspondence: in both
scheduling modes a successful run has exactly one result per task, in
input order, each equal to its task's own value; and the sequential
(win32) branch and the concurrent branch compute the same result. -/
theorem c9_mapAsync_positional (win32 : Bool) (inputs : List α)
    (f : α → Nat → Except ε β) (res : List β) :
    mapAsyncSeq inputs f = mapAsyncConc inputs f ∧
    (mapAsync win32 inputs f = Except.ok res →
      res.length = inputs.length ∧
      ∀ j (hj : j < inputs.length) (hr : j < res.length),
        f (inputs.get ⟨j, hj⟩) j = Except.ok (res.get ⟨j, hr⟩)) :=
  ⟨mapAsyncSeq_eq_conc f inputs, fun h => mapAsync_ok_spec win32 inputs f res h⟩

/-- Witness for C9 at a concrete task list in the sequential mode. -/
theorem c9_mapAsync_positional_witness :
    ([10, 21] : List Nat).length = ([10, 20] : List Nat).length ∧
    ∀ j (hj : j < ([10, 20] : List Nat).length) (hr : j < ([10, 21] : List Nat).length),
      (fun (x i : Nat) => (Except.ok (x + i) : Except Unit Nat)) (([10, 20] : List Nat).get ⟨j, hj⟩) j =
        Except.ok (([10, 21] : List Nat).get ⟨j, hr⟩) :=
  (c9_mapAsync_positional true [10, 20]
    (fun x i => (Except.ok (x + i) : Except Unit Nat)) [10, 21]).2 (by rfl)

/-- A plane rendered with `raw := true` carries raw contents. -/
theorem createPlaneFavicon_raw_shape (sourceset : List SourceImage) (opts : IconPlaneOptions)
    (name : String) (img : FaviconImage)
    (h : createPlaneFavicon sourceset opts name true = Except.ok img) :
    ∃ pl, img.contents = FaviconContents.raw pl := by
  simp only [createPlaneFavicon] at h
  split at h
  · cases h
  · split at h
    · cases h
    · cases h
      exact ⟨_, rfl⟩

/-- C3 (amended): `createFavicon` builds the container artifact (every
spec rendered as a raw plane through `mapAsync`, the ordered raw planes
handed to the ICO encoder) exactly when the name's extension is `.ico`
or the flattened spec list does not have exactly one entry (more than
one, or zero); with exactly one spec and a non-`.ico` extension it
renders the single spec directly under the artifact name. A successful
fan-out yields one raw plane per spec, in spec order. -/
theorem c3_amended_container_rule (win32 : Bool) (sourceset : List SourceImage)
    (name : String) (iconOptions : IconOptions) :
    ((extname name = ".ico" ∨ (flattenIconOptions iconOptions).length ≠ 1) →
      createFavicon win32 sourceset name iconOptions =
        (mapAsync win32 (flattenIconOptions iconOptions) (fun props _ =>
            createPlaneFavicon sourceset props (rawPlaneName props) true)).bind
          (fun images => Except.ok
            { name := name, contents := FaviconContents.ico
                (images.filterMap (fun image => image.contents.rawPlane)) })) ∧
    (∀ images, mapAsync win32 (flattenIconOptions iconOptions) (fun props _ =>
        createPlaneFavicon sourceset props (rawPlaneName props) true) = Except.ok images →
      images.length = (flattenIconOptions iconOptions).length ∧
      (∀ j (hj : j < (flattenIconOptions iconOptions).length) (hr : j < images.length),
        createPlaneFavicon sourceset ((flattenIconOptions iconOptions).get ⟨j, hj⟩)
          (rawPlaneName ((flattenIconOptions iconOptions).get ⟨j, hj⟩)) true =
          Except.ok (images.get ⟨j, hr⟩)) ∧
      ∀ image ∈ images, ∃ pl, image.contents = FaviconContents.raw pl) ∧
    (¬(extname name = ".ico" ∨ (flattenIconOptions iconOptions).length ≠ 1) →
      createFavicon win32 sourceset name iconOptions =
        createPlaneFavicon sourceset ((flattenIconOptions iconOptions).headD default)
          name false) := by
  refine ⟨?_, ?_, ?_⟩
  · intro hcond
    simp only [createFavicon]
    rw [if_pos hcond]
  · intro images h
    obtain ⟨hlen, hpos⟩ := mapAsync_ok_spec win32 (flattenIconOptions iconOptions)
      (fun props _ => createPlaneFavicon sourceset props (rawPlaneName props) true) images h
    refine ⟨hlen, fun j hj hr => hpos j hj hr, ?_⟩
    intro image himg
    obtain ⟨n, hn⟩ := List.mem_iff_get.mp himg
    have hj : (n : Nat) < (flattenIconOptions iconOptions).length := by
      have := n.isLt
      omega
    have hx := hpos n hj n.isLt
    rw [hn] at hx
    exact createPlaneFavicon_raw_shape sourceset _ _ image hx
  · intro hcond
    simp only [createFavicon]
    rw [if_neg hcond]

/-- Witness for C3 (amended): a `.ico` name with one spec takes the
container branch, and with one spec plus a `.png` name the single spec
is rendered directly. -/
theorem c3_amended_container_rule_witness :
    (createFavicon false [srcA] "favicon.ico" ioOne =
      (mapAsync false (flattenIconOptions ioOne) (fun props _ =>
          createPlaneFavicon [srcA] props (rawPlaneName props) true)).bind
        (fun images => Except.ok
          { name := "favicon.ico", contents := FaviconContents.ico
              (images.filterMap (fun image => image.contents.rawPlane)) })) ∧
    (createFavicon false [srcA] "favicon-16.png" ioOne =
      createPlaneFavicon [srcA] ((flattenIconOptions ioOne).headD default)
        "favicon-16.png" false) :=
  ⟨(c3_amended_container_rule false [srcA] "favicon.ico" ioOne).1 (Or.inl (by decide)),
   (c3_amended_container_rule false [srcA] "favicon-16.png" ioOne).2.2 (by decide)⟩

/-- C3 counterexample: with an empty spec list and a non-container name
the condition of the claim (extension `.ico` or more than one spec) is
false, yet the code still produces a container artifact (an ICO holding
zero planes) rather than rendering a single spec directly. -/
theorem c3_counterexample :
    createFavicon false [srcA] "a.png" ioEmpty =
      Except.ok { name := "a.png", contents := FaviconContents.ico [] } ∧
    ¬(extname "a.png" = ".ico" ∨ 1 < (flattenIconOptions ioEmpty).length) := by
  exact ⟨by rfl, by decide⟩

/-- C8: `sourceImages` rejects an undecodable buffer with the
invalid-image error, an empty list with the no-source error, a list
containing a nested list with the invalid-source-type error (as is any
value that is neither buffer, string nor list); a valid flat list is
decoded element-wise with the concatenated output in input order. -/
theorem c8_sourceImages_errors_and_order (decode : List Nat → Option Metadata)
    (readFile : String → Option (List Nat)) (win32 : Bool)
    (b : List Nat) (ys xs : List SrcVal) (f2 : SrcVal → List SourceImage) :
    (decode b = none → sourceImages decode readFile win32 (SrcVal.buf b) =
      Except.error FaviconError.invalidImageBuffer) ∧
    (sourceImages decode readFile win32 (SrcVal.arr []) =
      Except.error FaviconError.noSource) ∧
    (ys.any SrcVal.isArr = true → sourceImages decode readFile win32 (SrcVal.arr ys) =
      Except.error FaviconError.invalidSourceType) ∧
    (sourceImages decode readFile win32 SrcVal.other =
      Except.error FaviconError.invalidSourceType) ∧
    (xs ≠ [] → xs.any SrcVal.isArr = false →
      (∀ x ∈ xs, sourceImages decode readFile win32 x = Except.ok (f2 x)) →
      sourceImages decode readFile win32 (SrcVal.arr xs) =
        Except.ok (xs.map f2).flatten) := by
  refine ⟨?_, ?_, ?_, ?_, ?_⟩
  · intro h0; simp [sourceImages, decodeBuffer, h0]
  · simp [sourceImages]
  · intro h0; simp [sourceImages, h0]
  · simp [sourceImages]
  · intro hne hflat hall
    have h2 : xs.isEmpty = false := by
      cases xs with
      | nil => exact absurd rfl hne
      | cons a l => rfl
    simp only [sourceImages, hflat, h2, Bool.false_eq_true, if_false]
    rw [mapAsync_ok_of_forall win32 xs.attach
      (fun x _ => sourceImages decode readFile win32 x.1)
      (fun x => f2 x.1) (fun x _ _ => hall x.1 x.2)]
    simp only [Except.bind]
    rw [List.attach_map_val xs f2]

/-- Witness for C8 at concrete inputs under the sample decoder: an
undecodable buffer, the empty list, a nested list, a non-source value,
and a valid two-buffer list decoded in order. -/
theorem c8_sourceImages_errors_and_order_witness :
    sourceImages decodeSample readFileSample true (SrcVal.buf [0]) =
      Except.error FaviconError.invalidImageBuffer ∧
    sourceImages decodeSample readFileSample true (SrcVal.arr []) =
      Except.error FaviconError.noSource ∧
    sourceImages decodeSample readFileSample true (SrcVal.arr [SrcVal.arr []]) =
      Except.error FaviconError.invalidSourceType ∧
    sourceImages decodeSample readFileSample true SrcVal.other =
      Except.error FaviconError.invalidSourceType ∧
    sourceImages decodeSample readFileSample true
        (SrcVal.arr [SrcVal.buf [7], SrcVal.buf [7]]) =
      Except.ok [{ data := [7], metadata := mdRaster },
                 { data := [7], metadata := mdRaster }] := by
  have hall : ∀ x ∈ [SrcVal.buf [7], SrcVal.buf [7]],
      sourceImages decodeSample readFileSample true x =
        Except.ok ((fun _ => [{ data := [7], metadata := mdRaster }]) x) := by
    intro x hx
    rcases List.mem_cons.mp hx with rfl | hx2
    · simp [sourceImages, decodeBuffer, decodeSample]
    · rcases List.mem_cons.mp hx2 with rfl | hx3
      · simp [sourceImages, decodeBuffer, decodeSample]
      · simp at hx3
  have h := c8_sourceImages_errors_and_order decodeSample readFileSample true [0]
    [SrcVal.arr []] [SrcVal.buf [7], SrcVal.buf [7]]
    (fun _ => [{ data := [7], metadata := mdRaster }])
  have h5 := h.2.2.2.2 (by simp) (by decide) hall
  exact ⟨h.1 (by decide), h.2.1, h.2.2.1 (by decide), h.2.2.2.1, by simpa using h5⟩
